import Mathlib

/-!
Shallow embedding of the avocado-cli build-orchestration core
(`src/avocado/`), together with theorems settling the specification
claims about it.

The data model mirrors the parsed TOML configuration as the Python code
consumes it.  Python dicts are modelled as insertion-ordered association
lists (`List (String × _)`); optional keys become `Option`; the tagged
dependency-spec union is an inductive type.  Each definition cites the
Python function it embeds.
-/

namespace Avocado

/-- The right-hand side of a dependency entry in `avocado.toml`: either a
plain string (the pinned version) or a table.  The Python code only ever
inspects the keys `version`, `ext` and `compile` of a table (in that
order), so the table form carries exactly those three optional fields. -/
inductive PySpec where
  | pstr (v : String)
  | ptable (version ext compile : Option String)
deriving DecidableEq, Repr

/-- A dependency map: a Python dict from package name to spec, with
insertion order preserved (Python 3.7+ dict semantics). -/
abbrev DepMap := List (String × PySpec)

/-- An `[ext.<name>]` section.  Fields the core reads, all optional in
TOML; `none` models an absent key.  (The schema stores tables here; the
commands index them as dicts.) -/
structure ExtConfig where
  version : Option String := none
  sysext : Option Bool := none
  confext : Option Bool := none
  scopes : Option (List String) := none
  sysextScopes : Option (List String) := none
  confextScopes : Option (List String) := none
  dependencies : Option DepMap := none
deriving DecidableEq, Repr

/-- An `[sdk.compile.<name>]` section (only the dependency map is read
by the resolver). -/
structure CompileConfig where
  dependencies : Option DepMap := none
deriving DecidableEq, Repr

/-- The `[sdk]` section. -/
structure SdkConfig where
  image : Option String := none
  compile : Option (List (String × CompileConfig)) := none
  dependencies : Option DepMap := none
deriving DecidableEq, Repr

/-- A `[runtime.<name>]` section. -/
structure RtConfig where
  target : Option String := none
  dependencies : Option DepMap := none
deriving DecidableEq, Repr

/-- A value stored in the `runtime` table.  `get_target_from_config`
distinguishes dict values (runtime configurations) from non-dict values,
so both forms are modelled. -/
inductive RtVal where
  | table (c : RtConfig)
  | str (s : String)
deriving DecidableEq, Repr

/-- The whole parsed configuration. -/
structure Config where
  sdk : Option SdkConfig := none
  ext : Option (List (String × ExtConfig)) := none
  runtime : Option (List (String × RtVal)) := none
deriving DecidableEq, Repr

/-- Python dict indexing on an association list: first (unique) key hit. -/
def lookup {α : Type} (m : List (String × α)) (k : String) : Option α :=
  (m.find? (fun p => p.1 = k)).map (fun p => p.2)

/-! ## TargetResolver (`src/avocado/utils/target.py`) -/

/-- Embeds `resolve_target(cli_target, config_target)`.  The environment read
`os.environ.get('AVOCADO_TARGET')` is an external input and is passed in
as the `envTarget` argument; `none` models both an absent CLI value and
an unset variable. -/
def resolve_target (cliTarget envTarget configTarget : Option String) :
    Option String :=
  match cliTarget with
  | some t => some t
  | none =>
    match envTarget with
    | some t => some t
    | none =>
      match configTarget with
      | some t => some t
      | none => none

/-- Whether a `runtime` table value is a dict (a runtime configuration),
mirroring `isinstance(value, dict)`. -/
def RtVal.isTable : RtVal → Bool
  | .table _ => true
  | .str _ => false

/-- Embeds `get_target_from_config(config)`: collect the dict-valued entries of
the `runtime` section; if there is exactly one, return its `target` key
(absent key gives `None`), otherwise `None`.  The guard
`not isinstance(runtime_section, dict)` cannot fire in this model because
the `runtime` field is typed as a table. -/
def get_target_from_config (config : Config) : Option String :=
  match config.runtime with
  | none => none
  | some rt =>
    match rt.filter (fun p => p.2.isTable) with
    | [(_, RtVal.table c)] => c.target
    | _ => none

end Avocado

namespace Avocado

/-! ## Dependency resolution (`src/avocado/commands/ext/deps.py`) -/

/-- A resolved `(kind, name, version)` triple; `kind` is the literal
string the code uses (`"pkg"` or `"ext"`). -/
structure Dep where
  kind : String
  name : String
  version : String
deriving DecidableEq, Repr

/-- The version an extension reference resolves to:
`config["ext"][extName]["version"]` when present, else `"*"`
(shared logic of `ExtDepsCommand._resolve_package_dependencies` and
`RuntimeDepsCommand._list_runtime_dependencies`). -/
def extRefVersion (config : Config) (extName : String) : String :=
  match config.ext with
  | none => "*"
  | some exts =>
    match lookup exts extName with
    | none => "*"
    | some ec => ec.version.getD "*"

/-- The expansion of one compile-unit dependency entry inside
`_resolve_package_dependencies`: plain strings and `version` tables
become package triples, everything else (including nested compile
references) is dropped. -/
def compileDepTriples (p : String × PySpec) : List Dep :=
  match p.2 with
  | .pstr v => [⟨"pkg", p.1, v⟩]
  | .ptable (some v) _ _ => [⟨"pkg", p.1, v⟩]
  | .ptable none _ _ => []

/-- Embeds `ExtDepsCommand._resolve_package_dependencies(config, name, spec)`
(textually identical in `SdkDepsCommand`): dispatches on the spec form,
checking the table keys `version`, `ext`, `compile` in that order. -/
def resolvePackageDependencies (config : Config) (packageName : String)
    (spec : PySpec) : List Dep :=
  match spec with
  | .pstr v => [⟨"pkg", packageName, v⟩]
  | .ptable (some v) _ _ => [⟨"pkg", packageName, v⟩]
  | .ptable none (some extName) _ =>
      [⟨"ext", extName, extRefVersion config extName⟩]
  | .ptable none none (some compileName) =>
    match config.sdk with
    | none => []
    | some sdk =>
      match sdk.compile with
      | none => []
      | some cs =>
        match lookup cs compileName with
        | none => []
        | some cc =>
          match cc.dependencies with
          | none => []
          | some deps => deps.foldr (fun p acc => compileDepTriples p ++ acc) []
  | .ptable none none none => []

/-- Flattening step of `_list_packages_from_config`: resolve every entry
of the dependency map and concatenate, in map order. -/
def flatResolve (config : Config) : DepMap → List Dep
  | [] => []
  | p :: ps => resolvePackageDependencies config p.1 p.2 ++ flatResolve config ps

/-- The `seen`-set deduplication loop of `_list_packages_from_config`:
keep the *first* occurrence of each full triple. -/
def dedupFirstAux (seen : List Dep) : List Dep → List Dep
  | [] => []
  | d :: ds =>
    if d ∈ seen then dedupFirstAux seen ds
    else d :: dedupFirstAux (d :: seen) ds

/-- First-occurrence deduplication by full `(kind, name, version)`. -/
def dedupFirst (l : List Dep) : List Dep := dedupFirstAux [] l

/-- The Python sort key `lambda x: (x[0] != "ext", x[1])`, with the
boolean encoded as `0`/`1` (`False < True`). -/
def depSortKey (d : Dep) : Nat × String :=
  (if d.kind = "ext" then 0 else 1, d.name)

/-- Lexicographic string comparison over character lists (Python's
`str` comparison: the first differing character's code point decides; a
string precedes its proper extensions).  Defined by structural recursion
so that it evaluates inside the kernel. -/
def strLeAux : List Char → List Char → Bool
  | [], _ => true
  | _ :: _, [] => false
  | a :: as, b :: bs =>
    if a = b then strLeAux as bs else decide (a.toNat < b.toNat)

/-- Python string `<=` on `String`. -/
def strLe (s t : String) : Bool := strLeAux s.data t.data

/-- Lexicographic order on sort keys (Python tuple comparison). -/
def keyLE (a b : Nat × String) : Prop :=
  a.1 < b.1 ∨ (a.1 = b.1 ∧ strLe a.2 b.2 = true)

instance : DecidableRel keyLE := fun a b => by
  unfold keyLE; infer_instance

/-- Order on resolved triples induced by the Python sort key. -/
def depLE (a b : Dep) : Prop := keyLE (depSortKey a) (depSortKey b)

instance : DecidableRel depLE := fun a b => by
  unfold depLE; infer_instance

instance : IsTotal Dep depLE := ⟨fun x y => by
  have hchar : ∀ a b : Char, a ≠ b → a.toNat ≠ b.toNat := by
    intro a b hne he
    exact hne (by have := congrArg Char.ofNat he; simpa using this)
  have key : ∀ as bs : List Char,
      strLeAux as bs = true ∨ strLeAux bs as = true := by
    intro as
    induction as with
    | nil => intro bs; exact Or.inl rfl
    | cons a as ih =>
      intro bs
      cases bs with
      | nil => exact Or.inr rfl
      | cons b bs =>
        by_cases hab : a = b
        · subst hab
          simpa only [strLeAux, if_pos rfl] using ih bs
        · have hba : b ≠ a := Ne.symm hab
          simp only [strLeAux, if_neg hab, if_neg hba, decide_eq_true_eq]
          rcases Nat.lt_trichotomy a.toNat b.toNat with h | h | h
          · exact Or.inl h
          · exact absurd h (hchar a b hab)
          · exact Or.inr h
  rcases Nat.lt_trichotomy (depSortKey x).1 (depSortKey y).1 with h | h | h
  · exact Or.inl (Or.inl h)
  · rcases key (depSortKey x).2.data (depSortKey y).2.data with h2 | h2
    · exact Or.inl (Or.inr ⟨h, h2⟩)
    · exact Or.inr (Or.inr ⟨h.symm, h2⟩)
  · exact Or.inr (Or.inl h)⟩

instance : IsTrans Dep depLE := ⟨fun x y z hxy hyz => by
  have hchar : ∀ a b : Char, a ≠ b → a.toNat ≠ b.toNat := by
    intro a b hne he
    exact hne (by have := congrArg Char.ofNat he; simpa using this)
  have key : ∀ as bs cs : List Char, strLeAux as bs = true →
      strLeAux bs cs = true → strLeAux as cs = true := by
    intro as
    induction as with
    | nil => intro bs cs _ _; rfl
    | cons a as ih =>
      intro bs cs h₁ h₂
      cases bs with
      | nil => exact absurd h₁ (by simp [strLeAux])
      | cons b bs =>
        cases cs with
        | nil => exact absurd h₂ (by simp [strLeAux])
        | cons c cs =>
          by_cases hab : a = b <;> by_cases hbc : b = c
          · subst hab; subst hbc
            simp only [strLeAux, if_pos rfl] at h₁ h₂ ⊢
            exact ih bs cs h₁ h₂
          · subst hab
            simp only [strLeAux, if_pos rfl, if_neg hbc] at h₂ ⊢
            exact h₂
          · subst hbc
            simp only [strLeAux, if_neg hab] at h₁ ⊢
            exact h₁
          · simp only [strLeAux, if_neg hab, if_neg hbc,
              decide_eq_true_eq] at h₁ h₂
            have hac : a.toNat < c.toNat := h₁.trans h₂
            have hane : a ≠ c := by
              intro he
              exact absurd (he ▸ hac) (lt_irrefl _)
            simp only [strLeAux, if_neg hane, decide_eq_true_eq]
            exact hac
  rcases hxy with h1 | ⟨h1, h1'⟩ <;> rcases hyz with h2 | ⟨h2, h2'⟩
  · exact Or.inl (h1.trans h2)
  · exact Or.inl (h2 ▸ h1)
  · exact Or.inl (h1 ▸ h2)
  · exact Or.inr ⟨h1.trans h2, key _ _ _ h1' h2'⟩⟩

/-- Stable insertion sort by the Python key.  `list.sort` is stable, and
any two stable sorts under the same key agree, so this computes exactly
the list `unique_packages.sort(key=lambda x: (x[0] != "ext", x[1]))`
produces.  (`List.insertionSort` inserts each element before the first
later-sorted element it is `≤` to, hence after equal keys — stable.) -/
def insertionSortDeps (l : List Dep) : List Dep := l.insertionSort depLE

/-- The `resolveAll` of the spec: flatten, deduplicate by full triple
(first occurrence), then stable-sort by `(kind != "ext", name)` —
the tail of `ExtDepsCommand._list_packages_from_config`. -/
def resolveAllDeps (config : Config) (depMap : DepMap) : List Dep :=
  insertionSortDeps (dedupFirst (flatResolve config depMap))

/-- Embeds `ExtDepsCommand._list_packages_from_config(config, extension)`. -/
def listPackagesFromConfig (config : Config) (extension : String) : List Dep :=
  match config.ext with
  | none => []
  | some exts =>
    match lookup exts extension with
    | none => []
    | some extConfig =>
      match extConfig.dependencies with
      | some deps => resolveAllDeps config deps
      | none => insertionSortDeps (dedupFirst [])

/-- One entry of `RuntimeDepsCommand._list_runtime_dependencies`: a dict
spec containing the key `ext` (checked first) is an extension reference;
otherwise strings and `version` tables give their version and any other
dict gives `"*"`. -/
def runtimeDepTriple (config : Config) (p : String × PySpec) : Dep :=
  match p.2 with
  | .ptable _ (some extName) _ => ⟨"ext", extName, extRefVersion config extName⟩
  | .pstr v => ⟨"pkg", p.1, v⟩
  | .ptable (some v) none _ => ⟨"pkg", p.1, v⟩
  | .ptable none none _ => ⟨"pkg", p.1, "*"⟩

/-- Embeds `RuntimeDepsCommand._list_runtime_dependencies(config, runtime_name)`:
one triple per map entry (no deduplication), then the same stable sort.
`execute` only calls it on dict-valued runtime entries, so the non-dict
case returns the empty list here. -/
def listRuntimeDependencies (config : Config) (runtimeName : String) :
    List Dep :=
  match config.runtime with
  | none => []
  | some rts =>
    match lookup rts runtimeName with
    | some (.table rc) =>
      match rc.dependencies with
      | none => []
      | some deps =>
        insertionSortDeps (deps.map (fun p => runtimeDepTriple config p))
    | _ => []

/-- Embeds `SdkDepsCommand._list_packages_from_config(config)`: the `sdk`
dependency map resolved like an extension map, plus every compile
section's own entries (strings and `version` tables only), then the same
dedup-and-sort tail. -/
def sdkListPackagesFromConfig (config : Config) : List Dep :=
  match config.sdk with
  | none => []
  | some sdk =>
    let fromDeps :=
      match sdk.dependencies with
      | some deps => flatResolve config deps
      | none => []
    let fromCompile :=
      match sdk.compile with
      | none => []
      | some cs =>
        cs.foldr (fun p acc =>
          (match p.2.dependencies with
           | some deps => deps.foldr (fun q a => compileDepTriples q ++ a) []
           | none => []) ++ acc) []
    insertionSortDeps (dedupFirst (fromDeps ++ fromCompile))

/-! ## Extension install (`src/avocado/commands/ext/install.py`) -/

/-- One element of the `packages` list that
`ExtInstallCommand._install_single_extension` hands to the dnf install
command.  `bare` is an entry whose spec compared equal to `"*"` (the bare
package name), `pinned` is `f"{name}-{version}"` for a string spec, and
`tableRendered` records `f"{name}-{version}"` where `version` is a dict
(its Python `str` rendering is kept symbolic). -/
inductive InstallEntry where
  | bare (name : String)
  | pinned (name version : String)
  | tableRendered (name : String) (version ext compile : Option String)
deriving DecidableEq, Repr

/-- The per-entry step of the install loop: dict specs containing a
`compile` key are skipped (`continue`); a spec equal to `"*"` yields the
bare name; any other spec is rendered as `f"{name}-{version}"` (a dict
never compares equal to `"*"`, so table specs always reach the f-string). -/
def installEntryOfSpec (p : String × PySpec) : Option InstallEntry :=
  match p.2 with
  | .ptable _ _ (some _) => none
  | .pstr v => some (if v = "*" then .bare p.1 else .pinned p.1 v)
  | .ptable v e none => some (.tableRendered p.1 v e none)

/-- The `packages` list `_install_single_extension` builds from
`extension_config.get("dependencies", {})`: raw map order, no
resolution, deduplication or sorting. -/
def installPackages (ec : ExtConfig) : List InstallEntry :=
  (ec.dependencies.getD []).filterMap installEntryOfSpec

/-- How a resolved `(kind, name, version)` triple would be rendered as a
dnf install argument, mirroring the `version == "*"` test of the install
loop.  Used to state the contract between the deps listing and the
install list. -/
def renderDep (d : Dep) : InstallEntry :=
  if d.version = "*" then .bare d.name else .pinned d.name d.version

/-! ## Command preconditions (`ext build` / `ext image` execute) -/

/-- Python truthiness of an extension table (`if not ext_config`): the
empty table is falsy.  Only the modelled keys participate. -/
def ExtConfig.pyTruthy (ec : ExtConfig) : Bool :=
  ec ≠ ⟨none, none, none, none, none, none, none⟩

/-- The `ext_types` list both `ExtBuildCommand.execute` and
`ExtImageCommand.execute` build from the `sysext`/`confext` flags
(`ext_config.get('sysext', False)` — absent keys default to false). -/
def extTypes (ec : ExtConfig) : List String :=
  (if ec.sysext.getD false then ["sysext"] else [])
    ++ (if ec.confext.getD false then ["confext"] else [])

/-- The pre-container phase of `ExtBuildCommand.execute`, in source
order: extension lookup and truthiness, `ext_types` emptiness, SDK image
presence, target resolution.  `.error ()` is an early `return False`
reached before the `SdkContainer` loop runs; `.ok ts` means execution
reaches the container-invocation loop with type list `ts`.  Config
loading precedes all of this and is modelled by `cfg` being given. -/
def extBuildPreflight (cfg : Config) (extName : String)
    (cliTarget envTarget : Option String) : Except Unit (List String) :=
  match lookup (cfg.ext.getD []) extName with
  | none => .error ()
  | some ec =>
    if ec.pyTruthy = false then .error ()
    else if extTypes ec = [] then .error ()
    else
      match (cfg.sdk.getD {}).image with
      | none => .error ()
      | some img =>
        if img = "" then .error ()
        else
          match resolve_target cliTarget envTarget (get_target_from_config cfg) with
          | none => .error ()
          | some t => if t = "" then .error () else .ok (extTypes ec)

/-- Python truthiness of a `runtime` table value (`if not target_arch`).
An empty string and the empty table are falsy. -/
def RtVal.pyTruthy : RtVal → Bool
  | .str s => s ≠ ""
  | .table c => c ≠ ⟨none, none⟩

/-- The target lookup of `ExtImageCommand.execute`:
`config.get('runtime', {}).get('target')` followed by the
`if not target_arch` truthiness test — the flat `target` key of the
`runtime` table, not the shared resolver. -/
def extImageTargetArch (cfg : Config) : Option RtVal :=
  match lookup (cfg.runtime.getD []) "target" with
  | none => none
  | some v => if v.pyTruthy then some v else none

/-- The pre-container phase of `ExtImageCommand.execute`, in source
order: extension lookup and truthiness, `ext_types` emptiness, SDK image
presence, then the flat runtime `target` lookup.  `.error ()` is an
early `return False` before any container call. -/
def extImagePreflight (cfg : Config) (extName : String) :
    Except Unit (List String) :=
  match lookup (cfg.ext.getD []) extName with
  | none => .error ()
  | some ec =>
    if ec.pyTruthy = false then .error ()
    else if extTypes ec = [] then .error ()
    else
      match (cfg.sdk.getD {}).image with
      | none => .error ()
      | some img =>
        if img = "" then .error ()
        else
          match extImageTargetArch cfg with
          | none => .error ()
          | some _ => .ok (extTypes ec)

/-! ## Container command construction (`src/avocado/utils/container.py`,
`ContainerRunner._build_container_command`) -/

/-- The `command` argument: `Union[str, List[str]]`. -/
inductive PyCmd where
  | str (s : String)
  | list (l : List String)
deriving DecidableEq, Repr

/-- The `--name` arguments (`if container_name:` — Python truthiness,
so the empty string adds nothing). -/
def nameArgs : Option String → List String
  | some n => if n ≠ "" then ["--name", n] else []
  | none => []

/-- The `AVOCADO_SDK_TARGET` environment argument (`if target:` —
Python truthiness, so the empty string adds nothing). -/
def targetEnvArgs : Option String → List String
  | some t => if t ≠ "" then ["-e", "AVOCADO_SDK_TARGET=" ++ t] else []
  | none => []

/-- The `-e KEY=VALUE` arguments for the extra environment variables. -/
def envVarArgs (envVars : List (String × String)) : List String :=
  envVars.foldr (fun kv acc => ["-e", kv.1 ++ "=" ++ kv.2] ++ acc) []

/-- The trailing command: a string command is appended as one argument,
a list command is extended element-wise. -/
def cmdArgs : PyCmd → List String
  | .str s => [s]
  | .list l => l

/-- Embeds `ContainerRunner._build_container_command`, argument for argument.
Defaults at the call sites: `container_tool="podman"`, `detach=False`,
`rm=True`, `interactive=False`, `tty=True`, no name, no extra env, no
additional volumes. -/
def buildContainerCommand
    (containerTool cwd containerImage : String) (command : PyCmd)
    (target : Option String) (envVars : List (String × String))
    (containerName : Option String)
    (detach rm interactive tty : Bool)
    (additionalVolumes : List String) : List String :=
  [containerTool, "run"]
    ++ (if rm then ["--rm"] else [])
    ++ nameArgs containerName
    ++ (if detach then ["-d"] else [])
    ++ (if interactive && !detach then ["-i", "-t"]
        else if tty then ["-t"] else [])
    ++ ["-v", cwd ++ ":/opt:z"]
    ++ additionalVolumes.foldr (fun v acc => ["-v", v] ++ acc) []
    ++ targetEnvArgs target
    ++ envVarArgs envVars
    ++ [containerImage]
    ++ cmdArgs command

/-- The volume specifications of a built command: every argument that
directly follows a `-v` flag. -/
def volumeArgs : List String → List String
  | [] => []
  | [_] => []
  | a :: v :: rest =>
    if a = "-v" then v :: volumeArgs rest else volumeArgs (v :: rest)

/-- Whether a volume specification ends in the read-only marker `:ro`. -/
def endsWithRo (v : String) : Bool :=
  match v.data.reverse with
  | 'o' :: 'r' :: ':' :: _ => true
  | _ => false

/-! ## Runtime var-image staging
(`RuntimeBuildCommand._create_var_build_script`) -/

/-- The staging commands emitted for one extension: the hard-link block
is emitted for every dict-valued entry of `config['ext']`
unconditionally, and the `lib/extensions` / `lib/confexts` symlink
commands are appended according to the `sysext` / `confext` flags. -/
structure StageCmds where
  ext : String
  sysextSymlink : Bool
  confextSymlink : Bool
deriving DecidableEq, Repr

/-- The per-extension staging blocks of
`RuntimeBuildCommand._create_var_build_script`: the loop runs over ALL
entries of `config.get('ext', {})` — it never consults any runtime's
dependency map.  (In the source this loop also references an undefined
`runtime_name` and has unbalanced parentheses on the two symlink
`append` calls; the emission modelled here is the evident intent of
those lines.) -/
def varBuildStageCmds (cfg : Config) : List StageCmds :=
  (cfg.ext.getD []).map
    (fun p => ⟨p.1, p.2.sysext.getD false, p.2.confext.getD false⟩)

/-- Following the spec: "the set of referenced extension names is the
runtime's required-extension set, used to filter which extensions get
symlinked into its var-image" — the extension names occurring as
`{ ext = ... }` references in the runtime's dependency map.  Stated from
the spec's words to compare against `varBuildStageCmds`. -/
def specRuntimeRequiredExts (cfg : Config) (runtimeName : String) :
    List String :=
  match lookup (cfg.runtime.getD []) runtimeName with
  | some (.table rc) =>
    (rc.dependencies.getD []).filterMap (fun p =>
      match p.2 with
      | .ptable _ (some e) _ => some e
      | _ => none)
  | _ => []

/-! ## SDK bootstrap entrypoint
(`SdkContainerHelper._create_entrypoint_script`) -/

/-- The commands of the generated entrypoint script, one constructor per
script line (or tightly coupled line group):
`deriveCodename` = the CODENAME block; `exportSdkEnv` = the
`export AVOCADO_SDK_*` / `DNF_SDK_*` / `RPM_*` block; the following
constructors are the lines of the `if [ ! -f
"$AVOCADO_SDK_PREFIX/environment-setup" ]` body in order (`echo`, the
`mkdir`/`cp` copies, the two `sed` macro rewrites, the three host dnf
steps, the target-dev and rootfs installroot bootstraps); `cdOpt` =
`cd /opt`; `sourceEnvSetup` = sourcing `environment-setup` under its own
`[ -f ... ]` guard. -/
inductive EntryStep where
  | deriveCodename
  | exportSdkEnv
  | echoInitializing
  | mkdirVarLib
  | copyRpmDb
  | copyVarCache
  | mkdirEtc
  | copyRpmrc
  | copyEtcRpm
  | copyEtcDnf
  | copyYumReposD
  | mkdirUsrLibRpm
  | copyUsrLibRpm
  | sedMacroUsr
  | sedMacroVar
  | dnfInstallSdk (target : String)
  | dnfCheckUpdate
  | dnfInstallToolchain
  | dnfInstallTargetDev
  | dnfInstallRootfs
  | cdOpt
  | sourceEnvSetup
deriving DecidableEq, Repr

/-- The body of the sentinel-guarded block, in script order: the
one-time SDK initialization steps. -/
def oneTimeSetupSteps (target : String) : List EntryStep :=
  [.echoInitializing, .mkdirVarLib, .copyRpmDb, .copyVarCache,
   .mkdirEtc, .copyRpmrc, .copyEtcRpm, .copyEtcDnf, .copyYumReposD,
   .mkdirUsrLibRpm, .copyUsrLibRpm, .sedMacroUsr, .sedMacroVar,
   .dnfInstallSdk target, .dnfCheckUpdate, .dnfInstallToolchain,
   .dnfInstallTargetDev, .dnfInstallRootfs]

/-- The steps a run of the entrypoint script executes.
`sentinelPresent`: whether `$AVOCADO_SDK_PREFIX/environment-setup`
exists when the script starts; `sentinelAfterInit`: whether it exists
when the trailing `[ -f ... ]` source guard runs after a first-run
initialization (the installed SDK package creates it).  When the
sentinel was present at the start it still is at the end, so that guard
reads `true` then.  The one-time block runs exactly when the sentinel
file is absent; the `source` suffix is emitted only when the
`source_environment` argument is true. -/
def entrypointRun (sentinelPresent sentinelAfterInit : Bool)
    (target : String) (sourceEnvironment : Bool) : List EntryStep :=
  [.deriveCodename, .exportSdkEnv]
    ++ (if sentinelPresent then [] else oneTimeSetupSteps target)
    ++ [.cdOpt]
    ++ (if sourceEnvironment
          && (if sentinelPresent then true else sentinelAfterInit)
        then [.sourceEnvSetup] else [])

/-! ## Clean command (`src/avocado/commands/clean.py`) -/

/-- The filesystem facts `CleanCommand.execute` consults: whether the
named project directory exists and whether its `_avocado` subdirectory
exists. -/
structure FsState where
  dirExists : Bool
  avocadoDirExists : Bool
deriving DecidableEq, Repr

/-- Embeds `CleanCommand.execute`, with `shutil.rmtree` modelled by whether it
raises (`rmtreeRaises`).  Returns the command's boolean result and the
filesystem state afterwards (the only mutation is the `rmtree` removal;
partial removal before an exception is not modelled and not relied on). -/
def cleanExecute (fs : FsState) (rmtreeRaises : Bool) : Bool × FsState :=
  if fs.dirExists = false then (false, fs)
  else if fs.avocadoDirExists = false then (true, fs)
  else if rmtreeRaises then (false, fs)
  else (true, { fs with avocadoDirExists := false })

/-! ## Helper definitions for stating the claims -/

/-- The triple a plain pinned entry resolves to — used to state the
all-pinned-strings case relating the deps listing to the install list. -/
def pinnedTriple (p : String × PySpec) : Dep :=
  ⟨"pkg", p.1, match p.2 with | .pstr v => v | _ => ""⟩

/-- Example configuration: one SDK image, one sysext-enabled extension
`net`, one runtime section `dev` with `target = "imx8mp"`. -/
def cfgTargetSample : Config :=
  ⟨some ⟨some "img", none, none⟩,
   some [("net", { sysext := some true })],
   some [("dev", RtVal.table ⟨some "imx8mp", none⟩)]⟩

/-- Example configuration: an extension `foo` declared under `ext`, and
a runtime `main` whose dependency map is empty (it references no
extension). -/
def cfgStagingSample : Config :=
  ⟨some ⟨some "img", none, none⟩,
   some [("foo", { sysext := some true })],
   some [("main", RtVal.table ⟨some "tgt", some []⟩)]⟩

/-- Example configuration: a runtime `main` whose dependency map has two
distinct keys both referencing the same extension `e`. -/
def cfgRuntimeDupSample : Config :=
  ⟨none, none,
   some [("main", RtVal.table
     ⟨none, some [("a", PySpec.ptable none (some "e") none),
                  ("b", PySpec.ptable none (some "e") none)]⟩)]⟩

/-- Example configuration: a compile unit `u` whose dependency map pins
`x = "2.0"`, so that a compile reference and a direct pin of `x` resolve
to two triples sharing kind and name but not version. -/
def cfgCompileSample : Config :=
  ⟨some ⟨none, some [("u", ⟨some [("x", PySpec.pstr "2.0")]⟩)], none⟩,
   none, none⟩

/-- Dependency map pairing a compile reference to `u` with a direct pin
of `x`, in two insertion orders. -/
def mapCompileFirst : DepMap :=
  [("c1", PySpec.ptable none none (some "u")), ("x", PySpec.pstr "1.0")]

/-- The same map entries with the other insertion order. -/
def mapPinFirst : DepMap :=
  [("x", PySpec.pstr "1.0"), ("c1", PySpec.ptable none none (some "u"))]

/-- Example configuration: extension `net` with two pinned dependencies
whose map insertion order is the reverse of their alphabetical order. -/
def cfgInstallOrderSample : Config :=
  ⟨none,
   some [("net",
     { dependencies :=
         some [("b", PySpec.pstr "1.0"), ("a", PySpec.pstr "2.0")] })],
   none⟩

/-! ## Shared lemmas -/

theorem mem_dedupFirstAux {x : Dep} :
    ∀ {l seen : List Dep}, x ∈ dedupFirstAux seen l ↔ x ∈ l ∧ x ∉ seen := by
  intro l
  induction l with
  | nil => intro seen; simp [dedupFirstAux]
  | cons d ds ih =>
    intro seen
    by_cases hd : d ∈ seen
    · simp only [dedupFirstAux, if_pos hd, ih, List.mem_cons]
      constructor
      · rintro ⟨hx, hns⟩; exact ⟨Or.inr hx, hns⟩
      · rintro ⟨hx | hx, hns⟩
        · exact absurd (hx ▸ hd) hns
        · exact ⟨hx, hns⟩
    · simp only [dedupFirstAux, if_neg hd, List.mem_cons, ih, not_or]
      constructor
      · rintro (rfl | ⟨hx, hxd, hxs⟩)
        · exact ⟨Or.inl rfl, hd⟩
        · exact ⟨Or.inr hx, hxs⟩
      · rintro ⟨rfl | hx, hns⟩
        · exact Or.inl rfl
        · by_cases hxd : x = d
          · exact Or.inl hxd
          · exact Or.inr ⟨hx, hxd, hns⟩

theorem nodup_dedupFirstAux :
    ∀ (l seen : List Dep), (dedupFirstAux seen l).Nodup := by
  intro l
  induction l with
  | nil => intro seen; simp [dedupFirstAux]
  | cons d ds ih =>
    intro seen
    by_cases hd : d ∈ seen
    · simpa [dedupFirstAux, if_pos hd] using ih seen
    · simp only [dedupFirstAux, if_neg hd]
      refine List.Nodup.cons ?_ (ih (d :: seen))
      intro hc
      exact (mem_dedupFirstAux.1 hc).2 (List.mem_cons_self d seen)

theorem mem_dedupFirst {x : Dep} {l : List Dep} :
    x ∈ dedupFirst l ↔ x ∈ l := by
  simp [dedupFirst, mem_dedupFirstAux]

theorem nodup_dedupFirst (l : List Dep) : (dedupFirst l).Nodup :=
  nodup_dedupFirstAux l []

theorem dedupFirstAux_eq_self :
    ∀ {l seen : List Dep}, l.Nodup → (∀ x ∈ l, x ∉ seen) →
      dedupFirstAux seen l = l := by
  intro l
  induction l with
  | nil => intro seen _ _; rfl
  | cons d ds ih =>
    intro seen hnd hdisj
    have hd : d ∉ seen := hdisj d (List.mem_cons_self d ds)
    simp only [dedupFirstAux, if_neg hd]
    congr 1
    refine ih hnd.of_cons ?_
    intro x hx
    simp only [List.mem_cons, not_or]
    exact ⟨fun hxd => (List.nodup_cons.1 hnd).1 (hxd ▸ hx),
      hdisj x (List.mem_cons_of_mem _ hx)⟩

theorem dedupFirst_eq_self {l : List Dep} (h : l.Nodup) :
    dedupFirst l = l :=
  dedupFirstAux_eq_self h (by simp)

theorem perm_insertionSortDeps (l : List Dep) : List.Perm (insertionSortDeps l) l :=
  List.perm_insertionSort depLE l

theorem sorted_insertionSortDeps (l : List Dep) :
    (insertionSortDeps l).Pairwise depLE :=
  List.sorted_insertionSort depLE l

theorem insertionSortDeps_eq_of_sorted {l : List Dep}
    (h : l.Pairwise depLE) : insertionSortDeps l = l :=
  List.Sorted.insertionSort_eq h

/-- Deduplicated lists of the same elements are permutations of each
other. -/
theorem dedupFirst_perm_of_perm {l₁ l₂ : List Dep} (h : List.Perm l₁ l₂) :
    List.Perm (dedupFirst l₁) (dedupFirst l₂) := by
  refine (List.perm_ext_iff_of_nodup (nodup_dedupFirst l₁)
    (nodup_dedupFirst l₂)).2 ?_
  intro a
  simp only [mem_dedupFirst]
  exact ⟨fun ha => h.mem_iff.1 ha, fun ha => h.mem_iff.2 ha⟩

/-- Lemma: `flatResolve` respects permutations of the dependency map. -/
theorem flatResolve_perm {cfg : Config} {m₁ m₂ : DepMap} (h : List.Perm m₁ m₂) :
    List.Perm (flatResolve cfg m₁) (flatResolve cfg m₂) := by
  induction h with
  | nil => exact List.Perm.refl _
  | cons p _ ih => exact List.Perm.append_left _ ih
  | swap p q l =>
    simp only [flatResolve]
    rw [← List.append_assoc, ← List.append_assoc]
    exact List.Perm.append_right _ List.perm_append_comm
  | trans _ _ ih₁ ih₂ => exact ih₁.trans ih₂

/-- Lemma: `strLeAux` is antisymmetric. -/
theorem strLeAux_antisymm : ∀ {as bs : List Char},
    strLeAux as bs = true → strLeAux bs as = true → as = bs := by
  intro as
  induction as with
  | nil =>
    intro bs h₁ h₂
    cases bs with
    | nil => rfl
    | cons b bs => exact absurd h₂ (by simp [strLeAux])
  | cons a as ih =>
    intro bs h₁ h₂
    cases bs with
    | nil => exact absurd h₁ (by simp [strLeAux])
    | cons b bs =>
      by_cases hab : a = b
      · subst hab
        simp only [strLeAux, if_pos rfl] at h₁ h₂
        rw [ih h₁ h₂]
      · have hba : b ≠ a := Ne.symm hab
        simp only [strLeAux, if_neg hab, if_neg hba,
          decide_eq_true_eq] at h₁ h₂
        exact absurd h₂ (not_lt.2 h₁.le)

/-- Lemma: `keyLE` is antisymmetric. -/
theorem keyLE_antisymm {a b : Nat × String} (hab : keyLE a b)
    (hba : keyLE b a) : a = b := by
  rcases hab with h1 | ⟨h1, h1'⟩ <;> rcases hba with h2 | ⟨h2, h2'⟩
  · exact absurd h2 (not_lt.2 h1.le)
  · exact absurd h1 (h2 ▸ lt_irrefl _)
  · exact absurd h2 (h1 ▸ lt_irrefl _)
  · exact Prod.ext h1 (congrArg String.mk (strLeAux_antisymm h1' h2'))

/-- Two key-sorted permutations whose elements have pairwise-distinct
sort keys are equal: the sort key is injective on the elements, so
`depLE` is antisymmetric on them. -/
theorem eq_of_perm_of_sorted_of_injKeys {l₁ l₂ : List Dep}
    (hp : List.Perm l₁ l₂) (hs₁ : l₁.Pairwise depLE) (hs₂ : l₂.Pairwise depLE)
    (hinj : ∀ a ∈ l₁, ∀ b ∈ l₁, depSortKey a = depSortKey b → a = b) :
    l₁ = l₂ :=
  List.Perm.eq_of_sorted
    (fun a b ha hb hab hba =>
      hinj a ha b (hp.mem_iff.2 hb) (keyLE_antisymm hab hba))
    hs₁ hs₂ hp

/-! ## Claim C2 -/

/-- C2: target resolution returns the first present value in the order
explicit caller value, `AVOCADO_TARGET` environment value, config value;
it returns `none` when all three are absent; and the config candidate is
`runtime.<name>.target` exactly when the configuration has exactly one
dict-valued runtime section, otherwise it is absent. -/
theorem target_resolution_precedence (e v : Option String) (cfg : Config) :
    (∀ a, e = some a →
      resolve_target e v (get_target_from_config cfg) = some a)
    ∧ (∀ b, e = none → v = some b →
      resolve_target e v (get_target_from_config cfg) = some b)
    ∧ (e = none → v = none →
      resolve_target e v (get_target_from_config cfg)
        = get_target_from_config cfg)
    ∧ (∀ rt n c, cfg.runtime = some rt →
        rt.filter (fun p => p.2.isTable) = [(n, RtVal.table c)] →
        get_target_from_config cfg = c.target)
    ∧ (∀ rt, cfg.runtime = some rt →
        (rt.filter (fun p => p.2.isTable)).length ≠ 1 →
        get_target_from_config cfg = none) := by
  refine ⟨?_, ?_, ?_, ?_, ?_⟩
  · rintro a rfl; rfl
  · rintro b rfl rfl; rfl
  · rintro rfl rfl
    simp only [resolve_target]
    cases get_target_from_config cfg <;> rfl
  · intro rt n c hrt hf
    simp only [get_target_from_config, hrt, hf]
  · intro rt hrt hlen
    simp only [get_target_from_config, hrt]
    cases hf : rt.filter (fun p => p.2.isTable) with
    | nil => rfl
    | cons x xs =>
      cases xs with
      | nil =>
        obtain ⟨n, tv⟩ := x
        cases tv with
        | table c => exact absurd (by rw [hf]; rfl) hlen
        | str s => rfl
      | cons y ys =>
        obtain ⟨n, tv⟩ := x
        cases tv <;> rfl

/-- C2 witness: the precedence table of the spec, at concrete inputs
over a config with a single runtime section `runtime.dev.target = "c"`. -/
theorem target_resolution_precedence_witness :
    resolve_target (some "a") (some "b")
        (get_target_from_config
          ⟨none, none, some [("dev", RtVal.table ⟨some "c", none⟩)]⟩)
      = some "a"
    ∧ resolve_target none (some "b")
        (get_target_from_config
          ⟨none, none, some [("dev", RtVal.table ⟨some "c", none⟩)]⟩)
      = some "b"
    ∧ resolve_target none none
        (get_target_from_config
          ⟨none, none, some [("dev", RtVal.table ⟨some "c", none⟩)]⟩)
      = some "c"
    ∧ resolve_target none none (get_target_from_config ⟨none, none, none⟩)
      = none := by
  refine ⟨?_, ?_, ?_, ?_⟩
  · exact (target_resolution_precedence (some "a") (some "b") _).1 "a" rfl
  · exact (target_resolution_precedence none (some "b") _).2.1 "b" rfl rfl
  · have h := (target_resolution_precedence none none
      ⟨none, none, some [("dev", RtVal.table ⟨some "c", none⟩)]⟩).2.2.1 rfl rfl
    rw [h]; rfl
  · have h := (target_resolution_precedence none none
      ⟨none, none, none⟩).2.2.1 rfl rfl
    rw [h]; rfl

/-! ## Claim C5 -/

/-- C5: every one-time SDK initialization step of the generated
entrypoint script (the config/metadata copies, the two macro rewrites,
the three foundational dnf steps and the two installroot bootstraps) sits
behind the single `[ ! -f "$AVOCADO_SDK_PREFIX/environment-setup" ]`
guard: a run with the sentinel present executes none of them, and its
step sequence is exactly the first run's sequence with the guarded block
removed (the shared prefix and suffix are unchanged). -/
theorem entrypoint_sentinel_gates_one_time_setup (t : String)
    (srcEnv : Bool) :
    entrypointRun false true t srcEnv
      = [.deriveCodename, .exportSdkEnv] ++ oneTimeSetupSteps t
          ++ ([.cdOpt] ++ (if srcEnv then [.sourceEnvSetup] else []))
    ∧ entrypointRun true true t srcEnv
      = [.deriveCodename, .exportSdkEnv]
          ++ ([.cdOpt] ++ (if srcEnv then [.sourceEnvSetup] else []))
    ∧ ∀ s ∈ oneTimeSetupSteps t, s ∉ entrypointRun true true t srcEnv := by
  refine ⟨by cases srcEnv <;> rfl, by cases srcEnv <;> rfl, ?_⟩
  intro s hs
  simp only [oneTimeSetupSteps, List.mem_cons, List.not_mem_nil, or_false]
    at hs
  rcases hs with rfl | rfl | rfl | rfl | rfl | rfl | rfl | rfl | rfl | rfl |
    rfl | rfl | rfl | rfl | rfl | rfl | rfl | rfl <;>
    cases srcEnv <;> simp [entrypointRun, oneTimeSetupSteps]

/-- C5 witness: at a concrete target, a concrete one-time step (the
first dnf install) is absent from the sentinel-present run. -/
theorem entrypoint_sentinel_gating_witness :
    EntryStep.dnfInstallSdk "qemux86-64"
      ∉ entrypointRun true true "qemux86-64" true :=
  (entrypoint_sentinel_gates_one_time_setup "qemux86-64" true).2.2
    (EntryStep.dnfInstallSdk "qemux86-64") (by decide)

/-! ## Claim C7 -/

/-- C7: an extension whose config has `sysext` and `confext` both false
(or both absent) makes `ext build` and `ext image` fail during their
pre-container phase: both executes return `False` before any container
invocation is attempted (and hence with no side effects). -/
theorem ext_disabled_fails_before_container (cfg : Config)
    (extName : String) (cli env : Option String) (ec : ExtConfig)
    (hec : lookup (cfg.ext.getD []) extName = some ec)
    (hs : ec.sysext.getD false = false)
    (hc : ec.confext.getD false = false) :
    extBuildPreflight cfg extName cli env = .error ()
    ∧ extImagePreflight cfg extName = .error () := by
  have htypes : extTypes ec = [] := by
    simp [extTypes, hs, hc]
  constructor
  · simp only [extBuildPreflight, hec, htypes]
    cases h : ec.pyTruthy <;> simp
  · simp only [extImagePreflight, hec, htypes]
    cases h : ec.pyTruthy <;> simp

/-- C7 witness: a concrete config whose extension `net` sets
`sysext = false` and omits `confext`. -/
theorem ext_disabled_fails_before_container_witness :
    extBuildPreflight
        ⟨some ⟨some "img", none, none⟩,
         some [("net", { sysext := some false })], none⟩
        "net" (some "tgt") none
      = .error ()
    ∧ extImagePreflight
        ⟨some ⟨some "img", none, none⟩,
         some [("net", { sysext := some false })], none⟩
        "net"
      = .error () :=
  ext_disabled_fails_before_container _ "net" (some "tgt") none
    { sysext := some false } rfl rfl rfl

/-! ## Claim C10 -/

/-- C10: `clean` on an existing project directory with no `_avocado`
subdirectory succeeds and leaves the filesystem unchanged; it fails
exactly when the project directory does not exist or when removing an
existing `_avocado` raises. -/
theorem clean_success_and_failure_conditions (fs : FsState) (r : Bool) :
    (fs.dirExists = true → fs.avocadoDirExists = false →
      cleanExecute fs r = (true, fs))
    ∧ ((cleanExecute fs r).1 = false ↔
        (fs.dirExists = false
          ∨ (fs.dirExists = true ∧ fs.avocadoDirExists = true ∧ r = true))) := by
  obtain ⟨de, ae⟩ := fs
  cases de <;> cases ae <;> cases r <;> simp [cleanExecute]

/-- C10 witness: concrete run on an existing directory without
`_avocado`. -/
theorem clean_no_avocado_dir_witness :
    cleanExecute ⟨true, false⟩ false = (true, ⟨true, false⟩) :=
  (clean_success_and_failure_conditions ⟨true, false⟩ false).1 rfl rfl

/-! ## Claim C3 -/

/-- C3: the extension-image subcommand does NOT use the shared target
resolver.  On a configuration with a single runtime section
`runtime.dev.target = "imx8mp"`, the shared resolver yields the explicit
target (or, absent one, the config target), and `ext build` reaches its
container phase — while `ext image` looks up the flat `target` key of
the `runtime` table, finds nothing, and aborts before any container
invocation.  The code contradicts the spec's uniform-precedence rule. -/
theorem ext_image_target_bypasses_resolver :
    get_target_from_config cfgTargetSample = some "imx8mp"
    ∧ resolve_target (some "qemux86-64") none
        (get_target_from_config cfgTargetSample) = some "qemux86-64"
    ∧ resolve_target none none (get_target_from_config cfgTargetSample)
      = some "imx8mp"
    ∧ extImageTargetArch cfgTargetSample = none
    ∧ extBuildPreflight cfgTargetSample "net" none none
      = Except.ok ["sysext"]
    ∧ extImagePreflight cfgTargetSample "net" = Except.error () :=
  ⟨rfl, rfl, rfl, rfl, rfl, rfl⟩

/-! ## Claim C4 -/

/-- C4: the runtime var-image staging script stages EVERY extension
declared under `ext`: an extension `foo` that no runtime dependency
references is still hard-linked (and, with `sysext = true`, symlinked),
contradicting the spec's required-extension filtering. -/
theorem var_image_stages_unreferenced_extension :
    varBuildStageCmds cfgStagingSample = [⟨"foo", true, false⟩]
    ∧ specRuntimeRequiredExts cfgStagingSample "main" = []
    ∧ "foo" ∈ (varBuildStageCmds cfgStagingSample).map StageCmds.ext
    ∧ "foo" ∉ specRuntimeRequiredExts cfgStagingSample "main" := by
  decide

/-! ## Claim C1 -/

/-- The resolved list of a dependency map contains no duplicates. -/
theorem nodup_resolveAllDeps (cfg : Config) (m : DepMap) :
    (resolveAllDeps cfg m).Nodup :=
  ((perm_insertionSortDeps _).nodup_iff).2 (nodup_dedupFirst _)

/-- The resolved list of a dependency map is sorted by the Python key. -/
theorem sorted_resolveAllDeps (cfg : Config) (m : DepMap) :
    (resolveAllDeps cfg m).Pairwise depLE :=
  sorted_insertionSortDeps _

/-- C1 counterexample: the runtime dependency listing is NOT
deduplicated — two dependency keys referencing the same extension yield
the same `(kind, name, version)` triple twice. -/
theorem runtime_deps_duplicate_triple :
    listRuntimeDependencies cfgRuntimeDupSample "main"
      = [⟨"ext", "e", "*"⟩, ⟨"ext", "e", "*"⟩]
    ∧ ¬ (listRuntimeDependencies cfgRuntimeDupSample "main").Nodup := by
  decide

/-- C1 (amended): the extension and SDK resolved lists contain no
duplicate triple and are ordered by the Python key `depLE`
(extension-kind entries first, then package-kind entries, names
non-decreasing within each kind); the runtime listing is ordered the
same way but is not deduplicated. -/
theorem deps_lists_sorted_ext_sdk_dedup (cfg : Config) (e r : String) :
    ((listPackagesFromConfig cfg e).Nodup
      ∧ (listPackagesFromConfig cfg e).Pairwise depLE)
    ∧ ((sdkListPackagesFromConfig cfg).Nodup
      ∧ (sdkListPackagesFromConfig cfg).Pairwise depLE)
    ∧ (listRuntimeDependencies cfg r).Pairwise depLE := by
  refine ⟨⟨?_, ?_⟩, ⟨?_, ?_⟩, ?_⟩
  · unfold listPackagesFromConfig
    split
    · exact List.nodup_nil
    · split
      · exact List.nodup_nil
      · split
        · exact nodup_resolveAllDeps _ _
        · exact ((perm_insertionSortDeps _).nodup_iff).2 (nodup_dedupFirst _)
  · unfold listPackagesFromConfig
    split
    · exact List.Pairwise.nil
    · split
      · exact List.Pairwise.nil
      · split
        · exact sorted_resolveAllDeps _ _
        · exact sorted_insertionSortDeps _
  · unfold sdkListPackagesFromConfig
    split
    · exact List.nodup_nil
    · exact ((perm_insertionSortDeps _).nodup_iff).2 (nodup_dedupFirst _)
  · unfold sdkListPackagesFromConfig
    split
    · exact List.Pairwise.nil
    · exact sorted_insertionSortDeps _
  · unfold listRuntimeDependencies
    split
    · exact List.Pairwise.nil
    · split
      · split
        · exact List.Pairwise.nil
        · exact sorted_insertionSortDeps _
      · exact List.Pairwise.nil

/-! ## Claim C9 -/

/-- C9 counterexample: resolution is NOT independent of the map's
iteration order when two distinct resolved triples share kind and name
but differ in version — the sort key ignores the version, and the stable
sort preserves encounter order, so the two insertion orders of the same
map produce differently ordered outputs. -/
theorem resolveAll_order_dependent :
    List.Perm mapCompileFirst mapPinFirst
    ∧ resolveAllDeps cfgCompileSample mapCompileFirst
      = [⟨"pkg", "x", "2.0"⟩, ⟨"pkg", "x", "1.0"⟩]
    ∧ resolveAllDeps cfgCompileSample mapPinFirst
      = [⟨"pkg", "x", "1.0"⟩, ⟨"pkg", "x", "2.0"⟩]
    ∧ resolveAllDeps cfgCompileSample mapCompileFirst
      ≠ resolveAllDeps cfgCompileSample mapPinFirst := by
  refine ⟨List.Perm.swap _ _ _, ?_, ?_, ?_⟩ <;> decide

/-- C9 (amended): the full resolution is deterministic and idempotent —
re-running the dedup-and-sort phase on its output returns the output
unchanged — and it is independent of the map's iteration order provided
no two distinct resolved triples share the same sort key (kind, name);
with colliding kind and name but distinct versions, output order follows
input order (the counterexample). -/
theorem resolveAll_deterministic_idempotent (cfg : Config)
    (m₁ m₂ : DepMap) (hperm : List.Perm m₁ m₂)
    (hinj : ∀ a ∈ flatResolve cfg m₁, ∀ b ∈ flatResolve cfg m₁,
      depSortKey a = depSortKey b → a = b) :
    resolveAllDeps cfg m₁ = resolveAllDeps cfg m₂
    ∧ insertionSortDeps (dedupFirst (resolveAllDeps cfg m₁))
        = resolveAllDeps cfg m₁ := by
  constructor
  · have hf := @flatResolve_perm cfg m₁ m₂ hperm
    have hd := dedupFirst_perm_of_perm hf
    have hp : List.Perm (resolveAllDeps cfg m₁) (resolveAllDeps cfg m₂) :=
      (perm_insertionSortDeps _).trans
        (hd.trans (perm_insertionSortDeps _).symm)
    refine eq_of_perm_of_sorted_of_injKeys hp (sorted_resolveAllDeps _ _)
      (sorted_resolveAllDeps _ _) ?_
    intro a ha b hb
    have ha' : a ∈ flatResolve cfg m₁ :=
      mem_dedupFirst.1 ((perm_insertionSortDeps _).subset ha)
    have hb' : b ∈ flatResolve cfg m₁ :=
      mem_dedupFirst.1 ((perm_insertionSortDeps _).subset hb)
    exact hinj a ha' b hb'
  · rw [dedupFirst_eq_self (nodup_resolveAllDeps cfg m₁)]
    exact insertionSortDeps_eq_of_sorted (sorted_resolveAllDeps _ _)

/-- C9 witness: a two-entry pinned map in both insertion orders, with
distinct names. -/
theorem resolveAll_deterministic_idempotent_witness :
    resolveAllDeps ⟨none, none, none⟩
        [("a", PySpec.pstr "1.0"), ("b", PySpec.pstr "2.0")]
      = resolveAllDeps ⟨none, none, none⟩
        [("b", PySpec.pstr "2.0"), ("a", PySpec.pstr "1.0")]
    ∧ insertionSortDeps (dedupFirst (resolveAllDeps ⟨none, none, none⟩
        [("a", PySpec.pstr "1.0"), ("b", PySpec.pstr "2.0")]))
      = resolveAllDeps ⟨none, none, none⟩
        [("a", PySpec.pstr "1.0"), ("b", PySpec.pstr "2.0")] :=
  resolveAll_deterministic_idempotent ⟨none, none, none⟩
    [("a", PySpec.pstr "1.0"), ("b", PySpec.pstr "2.0")]
    [("b", PySpec.pstr "2.0"), ("a", PySpec.pstr "1.0")]
    (List.Perm.swap _ _ _) (by decide)

/-! ## Claim C6 -/

/-- Flattening an all-pinned map resolves each entry to its pinned
package triple. -/
theorem flatResolve_all_pinned {cfg : Config} : ∀ {m : DepMap},
    (∀ p ∈ m, ∃ v, p.2 = PySpec.pstr v) →
    flatResolve cfg m = m.map pinnedTriple := by
  intro m
  induction m with
  | nil => intro _; rfl
  | cons p ps ih =>
    intro h
    obtain ⟨v, hv⟩ := h p (List.mem_cons_self _ _)
    show resolvePackageDependencies cfg p.1 p.2 ++ flatResolve cfg ps = _
    rw [hv, List.map_cons,
      ih (fun q hq => h q (List.mem_cons_of_mem _ hq))]
    simp [resolvePackageDependencies, pinnedTriple, hv]

/-- The install loop over an all-pinned map renders exactly the pinned
triples in map order. -/
theorem filterMap_install_all_pinned : ∀ {m : DepMap},
    (∀ p ∈ m, ∃ v, p.2 = PySpec.pstr v) →
    m.filterMap installEntryOfSpec = (m.map pinnedTriple).map renderDep := by
  intro m
  induction m with
  | nil => intro _; rfl
  | cons p ps ih =>
    intro h
    obtain ⟨v, hv⟩ := h p (List.mem_cons_self _ _)
    have hspec : installEntryOfSpec p
        = some (if v = "*" then InstallEntry.bare p.1
                else InstallEntry.pinned p.1 v) := by
      unfold installEntryOfSpec; rw [hv]
    rw [List.filterMap_cons, hspec, List.map_cons, List.map_cons,
      ih (fun q hq => h q (List.mem_cons_of_mem _ hq))]
    simp only [pinnedTriple, renderDep, hv]

/-- C6 counterexample: for the map `{b = "1.0", a = "2.0"}` the install
subcommand's package list is in raw map order while the deps listing is
sorted, so the sequences differ element for element. -/
theorem install_list_differs_from_deps_listing :
    installPackages
        { dependencies :=
            some [("b", PySpec.pstr "1.0"), ("a", PySpec.pstr "2.0")] }
      = [.pinned "b" "1.0", .pinned "a" "2.0"]
    ∧ (listPackagesFromConfig cfgInstallOrderSample "net").map renderDep
      = [.pinned "a" "2.0", .pinned "b" "1.0"]
    ∧ installPackages
        { dependencies :=
            some [("b", PySpec.pstr "1.0"), ("a", PySpec.pstr "2.0")] }
      ≠ (listPackagesFromConfig cfgInstallOrderSample "net").map renderDep := by
  refine ⟨rfl, ?_, ?_⟩ <;> decide

/-- C6 (amended): for a dependency map whose entries are all plain
pinned strings (and whose keys are distinct, as in any Python dict), the
install subcommand's package list contains exactly the deps listing's
entries rendered as install arguments — but as a permutation (raw map
insertion order), not element-for-element in the listing's sorted order;
with table specs the lists diverge further (compile refs are skipped
rather than expanded, extension refs are rendered raw). -/
theorem install_list_perm_of_deps_listing (cfg : Config)
    (exts : List (String × ExtConfig)) (e : String) (ec : ExtConfig)
    (m : DepMap)
    (hext : cfg.ext = some exts) (hlook : lookup exts e = some ec)
    (hdeps : ec.dependencies = some m)
    (hstr : ∀ p ∈ m, ∃ v, p.2 = PySpec.pstr v)
    (hkeys : (m.map Prod.fst).Nodup) :
    List.Perm (installPackages ec)
      ((listPackagesFromConfig cfg e).map renderDep) := by
  have hlist : listPackagesFromConfig cfg e = resolveAllDeps cfg m := by
    simp only [listPackagesFromConfig, hext, hlook, hdeps]
  have hnd : (m.map pinnedTriple).Nodup := by
    refine List.Nodup.of_map Dep.name ?_
    have hmm : (m.map pinnedTriple).map Dep.name = m.map Prod.fst := by
      rw [List.map_map]; rfl
    rw [hmm]; exact hkeys
  have hresolve : resolveAllDeps cfg m
      = insertionSortDeps (m.map pinnedTriple) := by
    unfold resolveAllDeps
    rw [flatResolve_all_pinned hstr, dedupFirst_eq_self hnd]
  have hinstall : installPackages ec
      = (m.map pinnedTriple).map renderDep := by
    unfold installPackages
    rw [hdeps, Option.getD_some, filterMap_install_all_pinned hstr]
  rw [hlist, hresolve, hinstall]
  exact ((perm_insertionSortDeps (m.map pinnedTriple)).map renderDep).symm

/-- C6 witness: the spec's own scenario — extension `net` with
`dependencies = { curl = "7.88" }`. -/
theorem install_list_perm_of_deps_listing_witness :
    List.Perm
      (installPackages { dependencies := some [("curl", PySpec.pstr "7.88")] })
      ((listPackagesFromConfig
          ⟨none,
           some [("net",
             { dependencies := some [("curl", PySpec.pstr "7.88")] })],
           none⟩ "net").map renderDep) :=
  install_list_perm_of_deps_listing _
    [("net", { dependencies := some [("curl", PySpec.pstr "7.88")] })]
    "net" _ [("curl", PySpec.pstr "7.88")] rfl rfl rfl
    (by
      intro p hp
      simp only [List.mem_singleton] at hp
      exact ⟨"7.88", by rw [hp]⟩)
    (by decide)

/-! ## Claim C8 -/

/-- A list without a `-v` flag contributes no volume argument. -/
theorem volumeArgs_eq_nil : ∀ {l : List String}, "-v" ∉ l →
    volumeArgs l = [] := by
  intro l
  induction l with
  | nil => intro _; rfl
  | cons a rest ih =>
    intro h
    have ha : a ≠ "-v" := fun e => h (e ▸ List.mem_cons_self a rest)
    have h' : "-v" ∉ rest := fun hm => h (List.mem_cons_of_mem _ hm)
    cases rest with
    | nil => rfl
    | cons v rest' =>
      simp only [volumeArgs, if_neg ha]
      exact ih h'

/-- Skipping a `-v`-free prefix leaves the volume arguments unchanged. -/
theorem volumeArgs_append : ∀ {l₁ l₂ : List String}, "-v" ∉ l₁ →
    volumeArgs (l₁ ++ l₂) = volumeArgs l₂ := by
  intro l₁
  induction l₁ with
  | nil => intro l₂ _; rfl
  | cons a l₁' ih =>
    intro l₂ h
    have ha : a ≠ "-v" := fun e => h (e ▸ List.mem_cons_self a l₁')
    have h' : "-v" ∉ l₁' := fun hm => h (List.mem_cons_of_mem _ hm)
    cases hl : l₁' ++ l₂ with
    | nil =>
      have hl₁ : l₁' = [] := (List.append_eq_nil.1 hl).1
      have hl₂ : l₂ = [] := (List.append_eq_nil.1 hl).2
      subst hl₁
      subst hl₂
      rfl
    | cons b rest =>
      show volumeArgs (a :: (l₁' ++ l₂)) = volumeArgs l₂
      rw [hl]
      simp only [volumeArgs, if_neg ha]
      rw [← hl]
      exact ih h'

/-- A `-v` flag yields the following argument as a volume. -/
theorem volumeArgs_cons_v (x : String) (l : List String) :
    volumeArgs ("-v" :: x :: l) = x :: volumeArgs l := by
  simp [volumeArgs]

/-- The environment-variable arguments contain no `-v` flag. -/
theorem not_mem_env_foldr : ∀ (evs : List (String × String)),
    (∀ kv ∈ evs, kv.1 ++ "=" ++ kv.2 ≠ "-v") →
    "-v" ∉ evs.foldr (fun kv acc => ["-e", kv.1 ++ "=" ++ kv.2] ++ acc) [] := by
  intro evs
  induction evs with
  | nil => intro _ h; simp at h
  | cons kv evs ih =>
    intro h hmem
    simp only [List.foldr_cons, List.cons_append, List.nil_append,
      List.mem_cons] at hmem
    rcases hmem with h1 | h1 | h1
    · exact absurd h1 (by decide)
    · exact (h kv (List.mem_cons_self _ _)) h1.symm
    · exact ih (fun q hq => h q (List.mem_cons_of_mem _ hq)) h1

/-- C8 counterexample: a default invocation (the shape every SDK helper
uses) produces exactly one volume mount — the working directory at
`/opt` with the SELinux relabel flag `:z`, not read-only — and no second
state-directory mount. -/
theorem container_command_mounts_counterexample :
    buildContainerCommand "podman" "/work/proj" "img"
        (PyCmd.list ["bash", "-c", "true"]) (some "tgt") [] none
        false true false true []
      = ["podman", "run", "--rm", "-t", "-v", "/work/proj:/opt:z",
         "-e", "AVOCADO_SDK_TARGET=tgt", "img", "bash", "-c", "true"]
    ∧ volumeArgs (buildContainerCommand "podman" "/work/proj" "img"
        (PyCmd.list ["bash", "-c", "true"]) (some "tgt") [] none
        false true false true [])
      = ["/work/proj:/opt:z"]
    ∧ endsWithRo "/work/proj:/opt:z" = false
    ∧ (volumeArgs (buildContainerCommand "podman" "/work/proj" "img"
        (PyCmd.list ["bash", "-c", "true"]) (some "tgt") [] none
        false true false true [])).length = 1 := by
  refine ⟨?_, ?_, ?_, ?_⟩ <;> decide

/-- C8 (amended): for every invocation built with the defaults of the
call sites — tool `podman`, no container name, no additional volumes,
and payload/env arguments that do not themselves contain a literal `-v`
token — the constructed command carries exactly one volume mount: the
working directory, read-write with SELinux relabeling, at the fixed
in-container path `/opt`.  No state-directory mount exists; the build
state lives under that single mount. -/
theorem container_command_single_rw_volume
    (cwd image : String) (command : PyCmd) (target : Option String)
    (envVars : List (String × String))
    (detach rm interactive tty : Bool)
    (himg : image ≠ "-v")
    (hcmd : ∀ s, command = PyCmd.str s → s ≠ "-v")
    (hcmdl : ∀ l, command = PyCmd.list l → "-v" ∉ l)
    (henv : ∀ kv ∈ envVars, kv.1 ++ "=" ++ kv.2 ≠ "-v") :
    volumeArgs (buildContainerCommand "podman" cwd image command target
        envVars none detach rm interactive tty [])
      = [cwd ++ ":/opt:z"] := by
  have hpre : ∀ t : String, ("AVOCADO_SDK_TARGET=" ++ t) ≠ "-v" := by
    intro t h
    have hlen := congrArg String.length h
    rw [String.length_append] at hlen
    have h1 : ("AVOCADO_SDK_TARGET=" : String).length = 19 := rfl
    have h2 : ("-v" : String).length = 2 := rfl
    rw [h1, h2] at hlen
    omega
  have htar : "-v" ∉ targetEnvArgs target := by
    cases target with
    | none => simp [targetEnvArgs]
    | some t =>
      by_cases ht : t = ""
      · simp [targetEnvArgs, ht]
      · simp only [targetEnvArgs, ht, ne_eq, not_false_iff, if_true,
          List.mem_cons, List.not_mem_nil, or_false, not_or]
        exact ⟨by decide, fun h => hpre t h.symm⟩
  have hcnv : "-v" ∉ cmdArgs command := by
    cases command with
    | str s =>
      simp only [cmdArgs, List.mem_singleton]
      exact fun h => (hcmd s rfl) h.symm
    | list l => exact hcmdl l rfl
  have hsuf : "-v" ∉ (targetEnvArgs target
      ++ (envVarArgs envVars ++ ([image] ++ cmdArgs command))) := by
    simp only [List.mem_append, not_or]
    refine ⟨htar, not_mem_env_foldr envVars henv, ?_, hcnv⟩
    simp only [List.mem_singleton]
    exact fun h => himg h.symm
  have h1 : "-v" ∉ ["podman", "run"] := by decide
  have h2 : "-v" ∉ (if rm then ["--rm"] else []) := by
    cases rm <;> decide
  have h3 : "-v" ∉ (if detach then ["-d"] else []) := by
    cases detach <;> decide
  have h4 : "-v" ∉ (if interactive && !detach then ["-i", "-t"]
      else if tty then ["-t"] else []) := by
    cases interactive <;> cases detach <;> cases tty <;> decide
  simp only [buildContainerCommand, nameArgs, List.foldr_nil,
    List.nil_append, List.append_nil, List.append_assoc]
  rw [volumeArgs_append h1, volumeArgs_append h2, volumeArgs_append h3,
    volumeArgs_append h4, List.cons_append, List.cons_append,
    List.nil_append, volumeArgs_cons_v, volumeArgs_eq_nil hsuf]

/-- C8 witness: a concrete default-shaped invocation with a target and
one extra environment variable. -/
theorem container_command_single_rw_volume_witness :
    volumeArgs (buildContainerCommand "podman" "/work/proj" "img"
        (PyCmd.list ["bash", "-c", "true"]) (some "tgt") [("FOO", "1")]
        none false true false true [])
      = ["/work/proj" ++ ":/opt:z"] :=
  container_command_single_rw_volume "/work/proj" "img"
    (PyCmd.list ["bash", "-c", "true"]) (some "tgt") [("FOO", "1")]
    false true false true (by decide)
    (fun s h => nomatch h)
    (fun l h => by cases h; decide)
    (by decide)

end Avocado
